import Mathlib

/-!
Verification of the endpoint-resolution, chat, and deploy logic of the
kaito kubectl plugin (`pkg/cmd`), as a shallow embedding in Lean.

The dynamic Go `interface{}` values (unstructured Kubernetes objects) are
modelled by the inductive `JValue`; Go maps `map[string]interface{}` are
association lists with first-match lookup; Go errors are `Option String`
or `Except String`; external effects (Kubernetes fetches, DNS probes,
filesystem checks) are passed in as explicit arguments.
-/

set_option maxRecDepth 8000

namespace KaitoCLI

/-- A dynamic JSON-like value: the embedding of Go `interface{}` as produced
by the Kubernetes dynamic client (`map[string]interface{}`, `[]interface{}`,
strings, numbers, booleans, nil). -/
inductive JValue where
  | str (s : String)
  | num (q : ℚ)
  | jbool (b : Bool)
  | null
  | arr (items : List JValue)
  | obj (fields : List (String × JValue))

/-- Lookup in a Go map modelled as an association list (first match wins;
real Go maps have unique keys). -/
def jLookup (fields : List (String × JValue)) (key : String) : Option JValue :=
  match fields with
  | [] => none
  | (k, v) :: rest => if k = key then some v else jLookup rest key

/-- One loop iteration of `isWorkspaceReady` (get_endpoint.go): given the
running `(resourceReady, inferenceReady)` flags and one entry of the
`conditions` list, return the updated flags.  Non-map entries and entries
whose `type` or `status` is not a string are skipped (Go type assertions
fail and the loop continues). -/
def updateFlags (flags : Bool × Bool) (condition : JValue) : Bool × Bool :=
  match condition with
  | .obj condMap =>
    match jLookup condMap "type" with
    | some (.str condType) =>
      match jLookup condMap "status" with
      | some (.str condStatus) =>
        if condType = "ResourceReady" then
          (if condStatus = "True" then (true, flags.2) else flags)
        else if condType = "InferenceReady" then
          (if condStatus = "True" then (flags.1, true) else flags)
        else flags
      | _ => flags
    | _ => flags
  | _ => flags

/-- Embedding of `GetEndpointOptions.isWorkspaceReady` (get_endpoint.go): the workspace
status must be a map, its `conditions` field a list, and scanning the list
must find both a `ResourceReady`/`True` and an `InferenceReady`/`True`
condition. -/
def isWorkspaceReady (status : JValue) : Bool :=
  match status with
  | .obj statusMap =>
    match jLookup statusMap "conditions" with
    | some (.arr conditionsList) =>
      let flags := conditionsList.foldl updateFlags (false, false)
      flags.1 && flags.2
    | _ => false
  | _ => false

/-- Specification-side predicate: the condition entry is a map whose `type`
field is the string `t` and whose `status` field is the string "True". -/
def condMatches (t : String) (condition : JValue) : Bool :=
  match condition with
  | .obj condMap =>
    (match jLookup condMap "type" with
     | some (.str s) => s = t
     | _ => false) &&
    (match jLookup condMap "status" with
     | some (.str s) => s = "True"
     | _ => false)
  | _ => false

lemma updateFlags_eq (flags : Bool × Bool) (c : JValue) :
    updateFlags flags c =
      (flags.1 || condMatches "ResourceReady" c,
       flags.2 || condMatches "InferenceReady" c) := by
  rcases flags with ⟨rr, ir⟩
  cases c with
  | obj condMap =>
    simp only [updateFlags, condMatches]
    rcases ht : jLookup condMap "type" with _ | vt
    · simp
    · cases vt with
      | str st =>
        rcases hs : jLookup condMap "status" with _ | vs
        · simp
        · cases vs with
          | str ss =>
            by_cases hR : st = "ResourceReady"
            · subst hR
              by_cases hT : ss = "True" <;> simp [hT]
            · by_cases hI : st = "InferenceReady"
              · subst hI
                by_cases hT : ss = "True" <;> simp [hR, hT]
              · simp [hR, hI]
          | _ => simp
      | _ => simp
  | str s => simp [updateFlags, condMatches]
  | num q => simp [updateFlags, condMatches]
  | jbool b => simp [updateFlags, condMatches]
  | null => simp [updateFlags, condMatches]
  | arr l => simp [updateFlags, condMatches]

lemma foldl_updateFlags (conds : List JValue) (rr ir : Bool) :
    conds.foldl updateFlags (rr, ir) =
      (rr || conds.any (condMatches "ResourceReady"),
       ir || conds.any (condMatches "InferenceReady")) := by
  induction conds generalizing rr ir with
  | nil => simp
  | cons c rest ih =>
    simp only [List.foldl_cons, updateFlags_eq, List.any_cons]
    rw [ih]
    simp [Bool.or_assoc]

/-- C2: the Readiness Evaluator returns true exactly when the status is a
map whose `conditions` field is a list containing a matching
`ResourceReady`/`True` entry and a matching `InferenceReady`/`True` entry
(malformed entries ignored); in every other case it returns false. -/
theorem isWorkspaceReady_iff (status : JValue) :
    isWorkspaceReady status = true ↔
      ∃ statusMap conds,
        status = JValue.obj statusMap ∧
        jLookup statusMap "conditions" = some (JValue.arr conds) ∧
        (∃ c ∈ conds, condMatches "ResourceReady" c = true) ∧
        (∃ c ∈ conds, condMatches "InferenceReady" c = true) := by
  constructor
  · intro h
    cases status with
    | obj statusMap =>
      rcases hc : jLookup statusMap "conditions" with _ | v
      · simp [isWorkspaceReady, hc] at h
      · cases v with
        | arr conds =>
          refine ⟨statusMap, conds, rfl, hc, ?_, ?_⟩
          · simp only [isWorkspaceReady, hc, foldl_updateFlags] at h
            have := (Bool.and_eq_true _ _).mp h
            simpa [List.any_eq_true] using this.1
          · simp only [isWorkspaceReady, hc, foldl_updateFlags] at h
            have := (Bool.and_eq_true _ _).mp h
            simpa [List.any_eq_true] using this.2
        | str s => simp [isWorkspaceReady, hc] at h
        | num q => simp [isWorkspaceReady, hc] at h
        | jbool b => simp [isWorkspaceReady, hc] at h
        | null => simp [isWorkspaceReady, hc] at h
        | obj f => simp [isWorkspaceReady, hc] at h
    | str s => simp [isWorkspaceReady] at h
    | num q => simp [isWorkspaceReady] at h
    | jbool b => simp [isWorkspaceReady] at h
    | null => simp [isWorkspaceReady] at h
    | arr l => simp [isWorkspaceReady] at h
  · rintro ⟨statusMap, conds, rfl, hc, ⟨cr, hcr, hcrm⟩, ⟨ci, hci, hcim⟩⟩
    simp only [isWorkspaceReady, hc, foldl_updateFlags]
    simp only [Bool.false_or, Bool.and_eq_true, List.any_eq_true]
    exact ⟨⟨cr, hcr, hcrm⟩, ⟨ci, hci, hcim⟩⟩

/-- Embedding of `corev1.LoadBalancerIngress`: one entry of `status.loadBalancer.ingress`. -/
structure IngressEntry where
  ip : String
  hostname : String
deriving Repr, DecidableEq

/-- The fields of a `corev1.Service` consumed by this tool:
`spec.type`, `spec.clusterIP`, `status.loadBalancer.ingress`. -/
structure Service where
  specType : String
  clusterIP : String
  ingress : List IngressEntry
deriving Repr, DecidableEq

/-- Embedding of `EndpointInfo` (get_endpoint.go): an available endpoint. -/
structure EndpointInfo where
  url : String
  type : String
  access : String
  description : String
deriving Repr, DecidableEq

/-- The flag fields of `GetEndpointOptions` (get_endpoint.go). -/
structure GetEndpointOptions where
  workspaceName : String
  namespaceName : String
  format : String
deriving Repr, DecidableEq

/-- The ingress-scanning loop of `getLoadBalancerEndpoint`: the first entry
with a non-empty IP, or failing that a non-empty hostname, yields
`http://<ip-or-host>:80`; entries with neither are skipped; no match
yields the empty string. -/
def lbEndpointOfIngress : List IngressEntry → String
  | [] => ""
  | entry :: rest =>
    let endpoint :=
      if entry.ip ≠ "" then "http://" ++ entry.ip ++ ":80"
      else if entry.hostname ≠ "" then "http://" ++ entry.hostname ++ ":80"
      else ""
    if endpoint ≠ "" then endpoint else lbEndpointOfIngress rest

/-- Embedding of `GetEndpointOptions.getLoadBalancerEndpoint` (get_endpoint.go). -/
def getLoadBalancerEndpoint (svc : Service) : String :=
  if svc.specType ≠ "LoadBalancer" then ""
  else lbEndpointOfIngress svc.ingress

/-- Embedding of `GetEndpointOptions.getClusterInternalEndpoint` (get_endpoint.go). -/
def getClusterInternalEndpoint (o : GetEndpointOptions) (svc : Service) : String :=
  if svc.clusterIP = "" ∨ svc.clusterIP = "None" then ""
  else "http://" ++ o.workspaceName ++ "." ++ o.namespaceName ++ ".svc.cluster.local:80"

/-- Go `strings.TrimSuffix`: remove one occurrence of `suffix` from the end
of `s` if present, else return `s` unchanged. -/
def trimSuffix (s suffix : String) : String :=
  if suffix.data.isSuffixOf s.data then
    String.mk (s.data.take (s.data.length - suffix.data.length))
  else s

/-- Embedding of `GetEndpointOptions.getAPIProxyEndpoint` (get_endpoint.go): from the
API-server base URL (`config.Host`, whose retrieval may fail — modelled by
the `Except` argument), build
`<base-without-trailing-slash>/api/v1/namespaces/<ns>/services/<name>:80/proxy`,
with the namespace defaulted to "default" when empty. -/
def getAPIProxyEndpoint (o : GetEndpointOptions) (host : Except String String) :
    Except String String :=
  match host with
  | .error e => .error ("failed to get REST config: " ++ e)
  | .ok h =>
    let namespaceName := if o.namespaceName = "" then "default" else o.namespaceName
    .ok (trimSuffix h "/" ++ "/api/v1/namespaces/" ++ namespaceName ++
         "/services/" ++ o.workspaceName ++ ":80/proxy")

/-- Embedding of `GetEndpointOptions.getAllEndpoints` (get_endpoint.go).  `svcFetch` is
the result of the Service GET, `host` the API-server base URL from the REST
config, and `dnsResolves` the outcome of the `net.LookupHost` probe on the
cluster-internal hostname (`canAccessClusterEndpoint`). -/
def getAllEndpoints (o : GetEndpointOptions) (svcFetch : Except String Service)
    (host : Except String String) (dnsResolves : Bool) :
    Except String (List EndpointInfo) :=
  match svcFetch with
  | .error e =>
    .error ("failed to get service for workspace " ++ o.workspaceName ++ ": " ++ e)
  | .ok svc =>
    let endpoints : List EndpointInfo := []
    let lbEndpoint := getLoadBalancerEndpoint svc
    let endpoints :=
      if lbEndpoint ≠ "" then
        endpoints ++ [⟨lbEndpoint, "LoadBalancer", "external",
                       "Direct public access via LoadBalancer"⟩]
      else endpoints
    let endpoints :=
      match getAPIProxyEndpoint o host with
      | .error _ => endpoints
      | .ok apiProxyEndpoint =>
        endpoints ++ [⟨apiProxyEndpoint, "APIProxy", "cluster",
                       "Kubernetes API proxy (works anywhere kubectl works)"⟩]
    let clusterEndpoint := getClusterInternalEndpoint o svc
    let endpoints :=
      if clusterEndpoint ≠ "" ∧ dnsResolves then
        endpoints ++ [⟨clusterEndpoint, "ClusterIP", "internal",
                       "Direct cluster-internal access (for pods)"⟩]
      else endpoints
    if endpoints = [] then
      .error ("no accessible endpoints found for workspace " ++ o.workspaceName)
    else .ok endpoints

lemma getAllEndpoints_ok_shape (o : GetEndpointOptions) (svcFetch : Except String Service)
    (host : Except String String) (dnsResolves : Bool) (l : List EndpointInfo)
    (h : getAllEndpoints o svcFetch host dnsResolves = .ok l) :
    l ≠ [] ∧ (l.map EndpointInfo.type).Sublist ["LoadBalancer", "APIProxy", "ClusterIP"] := by
  rcases svcFetch with e | svc
  · simp [getAllEndpoints] at h
  · rcases host with he | hh <;>
      by_cases hlb : getLoadBalancerEndpoint svc = "" <;>
      by_cases hcl : getClusterInternalEndpoint o svc ≠ "" ∧ dnsResolves = true <;>
      simp [getAllEndpoints, getAPIProxyEndpoint, hlb, hcl] at h <;>
      · rcases h with rfl
        refine ⟨by simp, ?_⟩
        simp only [List.map_cons, List.map_nil]
        decide

/-- C3: the Endpoint Enumerator either fails or returns a non-empty list
whose entries are ordered LoadBalancer, then APIProxy, then ClusterIP (each
optional); it never returns an empty list with success, and when all three
candidate endpoints are absent it fails with the no-endpoints error. -/
theorem getAllEndpoints_spec (o : GetEndpointOptions) (svcFetch : Except String Service)
    (host : Except String String) (dnsResolves : Bool) :
    (∀ l, getAllEndpoints o svcFetch host dnsResolves = .ok l →
        l ≠ [] ∧ (l.map EndpointInfo.type).Sublist ["LoadBalancer", "APIProxy", "ClusterIP"]) ∧
    (∀ svc, svcFetch = .ok svc →
        getLoadBalancerEndpoint svc = "" →
        (∀ u, getAPIProxyEndpoint o host ≠ .ok u) →
        (getClusterInternalEndpoint o svc = "" ∨ dnsResolves = false) →
        getAllEndpoints o svcFetch host dnsResolves =
          .error ("no accessible endpoints found for workspace " ++ o.workspaceName)) := by
  constructor
  · intro l h
    exact getAllEndpoints_ok_shape o svcFetch host dnsResolves l h
  · rintro svc rfl hlb hproxy hcluster
    rcases host with he | hh
    · have hcl : ¬ (getClusterInternalEndpoint o svc ≠ "" ∧ dnsResolves = true) := by
        rcases hcluster with hc | hd
        · intro hx; exact hx.1 hc
        · intro hx; rw [hd] at hx; exact Bool.false_ne_true hx.2
      simp [getAllEndpoints, getAPIProxyEndpoint, hlb, hcl]
    · exact absurd rfl (hproxy _)

/-- Witness for C3 at a concrete input: a ClusterIP service with an
obtainable API-server base yields a single APIProxy endpoint, and the same
service with no obtainable base and a failing DNS probe yields the
no-endpoints error. -/
theorem getAllEndpoints_spec_witness :
    ([EndpointInfo.mk
        "https://api.example.com/api/v1/namespaces/default/services/my-ws:80/proxy"
        "APIProxy" "cluster" "Kubernetes API proxy (works anywhere kubectl works)"] ≠
        ([] : List EndpointInfo) ∧
      (["APIProxy"] : List String).Sublist ["LoadBalancer", "APIProxy", "ClusterIP"]) ∧
    getAllEndpoints ⟨"my-ws", "default", "url"⟩ (.ok ⟨"ClusterIP", "None", []⟩)
        (.error "no config") false =
      .error "no accessible endpoints found for workspace my-ws" := by
  constructor
  · exact (getAllEndpoints_spec ⟨"my-ws", "default", "url"⟩
      (.ok ⟨"ClusterIP", "10.0.0.5", []⟩) (.ok "https://api.example.com") false).1
      _ (by rfl)
  · exact (getAllEndpoints_spec ⟨"my-ws", "default", "url"⟩
      (.ok ⟨"ClusterIP", "None", []⟩) (.error "no config") false).2
      _ rfl (by rfl) (by intro u hu; simp [getAPIProxyEndpoint] at hu) (by right; rfl)

lemma http_ne_empty (s : String) : ("http://" ++ s ++ ":80") ≠ "" := by
  intro h
  have := congrArg String.data h
  simp [String.data_append] at this

/-- Specification-side predicate: the ingress entry exposes an address
(a non-empty IP or a non-empty hostname). -/
def hasAddress (en : IngressEntry) : Bool :=
  !(en.ip == "") || !(en.hostname == "")

lemma lbEndpointOfIngress_eq_find (l : List IngressEntry) :
    lbEndpointOfIngress l =
      (match l.find? hasAddress with
       | some en => "http://" ++ (if en.ip ≠ "" then en.ip else en.hostname) ++ ":80"
       | none => "") := by
  induction l with
  | nil => rfl
  | cons en rest ih =>
    by_cases hip : en.ip = ""
    · by_cases hhost : en.hostname = ""
      · simpa [lbEndpointOfIngress, List.find?_cons, hasAddress, hip, hhost] using ih
      · simp [lbEndpointOfIngress, List.find?_cons, hasAddress, hip, hhost, http_ne_empty]
    · simp [lbEndpointOfIngress, List.find?_cons, hasAddress, hip, http_ne_empty]

lemma trimSuffix_append_slash (h : String) : trimSuffix (h ++ "/") "/" = h := by
  simp [trimSuffix, String.data_append, List.isSuffixOf_iff_suffix]

lemma getAllEndpoints_lb_head (o : GetEndpointOptions) (svc : Service)
    (host : Except String String) (dns : Bool)
    (hne : getLoadBalancerEndpoint svc ≠ "") :
    ∃ tail, getAllEndpoints o (.ok svc) host dns =
      .ok (⟨getLoadBalancerEndpoint svc, "LoadBalancer", "external",
            "Direct public access via LoadBalancer"⟩ :: tail) := by
  rcases hres : getAllEndpoints o (.ok svc) host dns with e | l
  · rcases host with he | hh <;>
      by_cases hcl : getClusterInternalEndpoint o svc ≠ "" ∧ dns = true <;>
      simp [getAllEndpoints, getAPIProxyEndpoint, hne, hcl] at hres
  · rcases host with he | hh <;>
      by_cases hcl : getClusterInternalEndpoint o svc ≠ "" ∧ dns = true <;>
      simp [getAllEndpoints, getAPIProxyEndpoint, hne, hcl] at hres <;>
      · rcases hres with rfl
        exact ⟨_, rfl⟩

lemma getAllEndpoints_ok_of_proxy (o : GetEndpointOptions) (svc : Service)
    (host : Except String String) (dns : Bool) (u : String)
    (hu : getAPIProxyEndpoint o host = .ok u) :
    ∃ l, getAllEndpoints o (.ok svc) host dns = .ok l := by
  rcases host with he | hh
  · simp [getAPIProxyEndpoint] at hu
  · rcases hres : getAllEndpoints o (.ok svc) (.ok hh) dns with e | l
    · by_cases hlb : getLoadBalancerEndpoint svc = "" <;>
        by_cases hcl : getClusterInternalEndpoint o svc ≠ "" ∧ dns = true <;>
        simp [getAllEndpoints, getAPIProxyEndpoint, hlb, hcl] at hres
    · exact ⟨l, rfl⟩

/-- C4: for a Service of type LoadBalancer, the LoadBalancer endpoint is
`http://<x>:80` where `<x>` is the IP (or, when empty, the hostname) of the
first ingress entry exposing an address; if some ingress entry bears a
non-empty IP the Enumerator succeeds and its first result is the
LoadBalancer/external entry; if no entry exposes an address, no
LoadBalancer endpoint is produced and enumeration still succeeds whenever
the API-proxy base is obtainable. -/
theorem getLoadBalancerEndpoint_spec (o : GetEndpointOptions) (svc : Service)
    (hT : svc.specType = "LoadBalancer") :
    (getLoadBalancerEndpoint svc =
      (match svc.ingress.find? hasAddress with
       | some en => "http://" ++ (if en.ip ≠ "" then en.ip else en.hostname) ++ ":80"
       | none => "")) ∧
    ((∃ en ∈ svc.ingress, en.ip ≠ "") →
      ∀ host dnsResolves, ∃ l rest ep,
        getAllEndpoints o (.ok svc) host dnsResolves = .ok l ∧
        l = ep :: rest ∧ ep.type = "LoadBalancer" ∧ ep.access = "external") ∧
    ((∀ en ∈ svc.ingress, en.ip = "" ∧ en.hostname = "") →
      getLoadBalancerEndpoint svc = "" ∧
      (∀ host dnsResolves l, getAllEndpoints o (.ok svc) host dnsResolves = .ok l →
        ∀ ep ∈ l, ep.type ≠ "LoadBalancer") ∧
      (∀ host dnsResolves u, getAPIProxyEndpoint o host = .ok u →
        ∃ l, getAllEndpoints o (.ok svc) host dnsResolves = .ok l)) := by
  have hlb : getLoadBalancerEndpoint svc = lbEndpointOfIngress svc.ingress := by
    simp [getLoadBalancerEndpoint, hT]
  refine ⟨hlb.trans (lbEndpointOfIngress_eq_find svc.ingress), ?_, ?_⟩
  · rintro ⟨en, hen, hip⟩ host dnsResolves
    have hsome : (svc.ingress.find? hasAddress).isSome := by
      rw [List.find?_isSome]
      exact ⟨en, hen, by simp [hasAddress, hip]⟩
    rcases Option.isSome_iff_exists.mp hsome with ⟨en', hen'⟩
    have hne : getLoadBalancerEndpoint svc ≠ "" := by
      rw [hlb, lbEndpointOfIngress_eq_find, hen']
      exact http_ne_empty _
    rcases getAllEndpoints_lb_head o svc host dnsResolves hne with ⟨tail, htail⟩
    exact ⟨_, tail, _, htail, rfl, rfl, rfl⟩
  · intro hempty
    have hfind : svc.ingress.find? hasAddress = none := by
      rw [List.find?_eq_none]
      intro en hen
      rcases hempty en hen with ⟨h1, h2⟩
      simp [hasAddress, h1, h2]
    have hzero : getLoadBalancerEndpoint svc = "" := by
      rw [hlb, lbEndpointOfIngress_eq_find, hfind]
    refine ⟨hzero, ?_, ?_⟩
    · intro host dnsResolves l h ep hepl
      rcases host with he | hh <;>
        by_cases hcl : getClusterInternalEndpoint o svc ≠ "" ∧ dnsResolves = true <;>
        simp [getAllEndpoints, getAPIProxyEndpoint, hzero, hcl] at h <;>
        · rcases h with rfl
          fin_cases hepl <;> simp
    · intro host dnsResolves u hu
      exact getAllEndpoints_ok_of_proxy o svc host dnsResolves u hu

/-- Witness for C4 at a concrete LoadBalancer service with one IP-bearing
ingress entry. -/
theorem getLoadBalancerEndpoint_spec_witness :
    (⟨"LoadBalancer", "10.0.0.5", [⟨"1.2.3.4", ""⟩]⟩ : Service).specType = "LoadBalancer" ∧
    (∃ l rest ep,
      getAllEndpoints ⟨"my-ws", "default", "url"⟩
          (.ok ⟨"LoadBalancer", "10.0.0.5", [⟨"1.2.3.4", ""⟩]⟩)
          (.ok "https://api.example.com") false = .ok l ∧
      l = ep :: rest ∧ ep.type = "LoadBalancer" ∧ ep.access = "external") := by
  refine ⟨rfl, ?_⟩
  exact (getLoadBalancerEndpoint_spec ⟨"my-ws", "default", "url"⟩
      ⟨"LoadBalancer", "10.0.0.5", [⟨"1.2.3.4", ""⟩]⟩ rfl).2.1
    ⟨⟨"1.2.3.4", ""⟩, by simp, by decide⟩ (.ok "https://api.example.com") false

/-- C5: whenever the API-server base URL is obtainable, the API-proxy URL is
`<base>/api/v1/namespaces/<ns>/services/<name>:80/proxy` with a trailing
slash stripped from the base and the namespace defaulted to "default" when
empty; in particular the end-to-end ClusterIP scenario of the spec yields
exactly the single APIProxy/cluster entry. -/
theorem getAPIProxyEndpoint_spec :
    (∀ (o : GetEndpointOptions) (h : String),
      getAPIProxyEndpoint o (.ok h) =
        .ok (trimSuffix h "/" ++ "/api/v1/namespaces/" ++
             (if o.namespaceName = "" then "default" else o.namespaceName) ++
             "/services/" ++ o.workspaceName ++ ":80/proxy")) ∧
    (∀ (o : GetEndpointOptions) (h : String), trimSuffix h "/" = h →
      getAPIProxyEndpoint o (.ok (h ++ "/")) = getAPIProxyEndpoint o (.ok h)) ∧
    getAllEndpoints ⟨"my-ws", "default", "url"⟩ (.ok ⟨"ClusterIP", "10.0.0.5", []⟩)
        (.ok "https://api.example.com") false =
      .ok [⟨"https://api.example.com/api/v1/namespaces/default/services/my-ws:80/proxy",
            "APIProxy", "cluster", "Kubernetes API proxy (works anywhere kubectl works)"⟩] := by
  refine ⟨fun o h => rfl, fun o h hh => ?_, by rfl⟩
  simp [getAPIProxyEndpoint, trimSuffix_append_slash, hh]

/-- Witness for C5: the trailing-slash clause applied at a concrete base URL. -/
theorem getAPIProxyEndpoint_spec_witness :
    trimSuffix "https://api.example.com" "/" = "https://api.example.com" ∧
    getAPIProxyEndpoint ⟨"my-ws", "default", "url"⟩
        (.ok ("https://api.example.com" ++ "/")) =
      getAPIProxyEndpoint ⟨"my-ws", "default", "url"⟩ (.ok "https://api.example.com") := by
  refine ⟨by decide, ?_⟩
  exact getAPIProxyEndpoint_spec.2.1 ⟨"my-ws", "default", "url"⟩
    "https://api.example.com" (by decide)

/-- One line printed to stdout by the get-endpoint command: either a bare
endpoint URL (Format == "url") or the JSON dump of workspace, namespace and
endpoint list (Format == "json"; the `json.MarshalIndent` rendering is
abstracted to its content). -/
inductive OutputLine where
  | url (u : String)
  | jsonDump (workspace namespaceName : String) (endpoints : List EndpointInfo)
deriving Repr, DecidableEq

/-- Outcome of one command `run`: the returned Go error (`none` = `nil`)
and the lines printed to stdout. -/
structure RunOutcome where
  err : Option String
  stdout : List OutputLine
deriving Repr, DecidableEq

/-- The `for _, ep := range endpoints` loop of `run` (get_endpoint.go):
the first endpoint with `Access == "external"`, if any. -/
def firstExternal : List EndpointInfo → Option EndpointInfo
  | [] => none
  | ep :: rest => if ep.access = "external" then some ep else firstExternal rest

/-- The Format == "url" arm of `GetEndpointOptions.run` (get_endpoint.go,
lines 162-177): error when the list is empty, else print the first
external endpoint, else print the first endpoint. -/
def urlFormatOutput (workspaceName : String) (endpoints : List EndpointInfo) :
    RunOutcome :=
  match endpoints with
  | [] => ⟨some ("no endpoints available for workspace " ++ workspaceName), []⟩
  | first :: _ =>
    match firstExternal endpoints with
    | some ep => ⟨none, [.url ep.url]⟩
    | none => ⟨none, [.url first.url]⟩

lemma firstExternal_eq_find (l : List EndpointInfo) :
    firstExternal l = l.find? (fun e => e.access == "external") := by
  induction l with
  | nil => rfl
  | cons ep rest ih =>
    by_cases h : ep.access = "external" <;>
      simp [firstExternal, List.find?_cons, h, ih]

/-- C6: the url-format output prints the URL of the first
`access == "external"` entry whenever one exists anywhere in the list,
otherwise the URL of the entry at index 0, and fails with the no-endpoints
error exactly when the list is empty. -/
theorem urlFormatOutput_spec (workspaceName : String) (l : List EndpointInfo) :
    ((urlFormatOutput workspaceName l).err.isSome ↔ l = []) ∧
    (l = [] → (urlFormatOutput workspaceName l).stdout = []) ∧
    ((∃ ep ∈ l, ep.access = "external") →
      ∃ ep, l.find? (fun e => e.access == "external") = some ep ∧
        urlFormatOutput workspaceName l = ⟨none, [.url ep.url]⟩) ∧
    (l.find? (fun e => e.access == "external") = none →
      ∀ first rest, l = first :: rest →
        urlFormatOutput workspaceName l = ⟨none, [.url first.url]⟩) := by
  refine ⟨?_, ?_, ?_, ?_⟩
  · cases l with
    | nil => simp [urlFormatOutput]
    | cons first rest =>
      rcases h : firstExternal (first :: rest) with _ | ep <;>
        simp [urlFormatOutput, h]
  · rintro rfl; rfl
  · rintro ⟨ep, hm, ha⟩
    have : (l.find? (fun e => e.access == "external")).isSome := by
      rw [List.find?_isSome]
      exact ⟨ep, hm, by simp [ha]⟩
    rcases Option.isSome_iff_exists.mp this with ⟨ep', hep'⟩
    refine ⟨ep', hep', ?_⟩
    cases l with
    | nil => simp at hm
    | cons first rest =>
      simp [urlFormatOutput, firstExternal_eq_find, hep']
  · intro hnone first rest hl
    subst hl
    simp [urlFormatOutput, firstExternal_eq_find, hnone]

/-- Witness for C6: an external entry at index 1 is selected over the
internal entry at index 0. -/
theorem urlFormatOutput_spec_witness :
    (∃ ep ∈ [EndpointInfo.mk "http://u1" "ClusterIP" "internal" "",
             EndpointInfo.mk "http://u2" "LoadBalancer" "external" ""],
        ep.access = "external") ∧
    (∃ ep, ([EndpointInfo.mk "http://u1" "ClusterIP" "internal" "",
             EndpointInfo.mk "http://u2" "LoadBalancer" "external" ""].find?
              (fun e => e.access == "external")) = some ep ∧
      urlFormatOutput "my-ws"
          [EndpointInfo.mk "http://u1" "ClusterIP" "internal" "",
           EndpointInfo.mk "http://u2" "LoadBalancer" "external" ""] =
        ⟨none, [.url ep.url]⟩) := by
  constructor
  · exact ⟨EndpointInfo.mk "http://u2" "LoadBalancer" "external" "", by simp, rfl⟩
  · exact (urlFormatOutput_spec "my-ws" _).2.2.1
      ⟨EndpointInfo.mk "http://u2" "LoadBalancer" "external" "", by simp, rfl⟩

lemma getAllEndpoints_proxy_mem (o : GetEndpointOptions) (svc : Service)
    (hh : String) (dns : Bool) :
    ∃ l, getAllEndpoints o (.ok svc) (.ok hh) dns = .ok l ∧
      ∃ ep ∈ l, ep.type = "APIProxy" := by
  rcases hres : getAllEndpoints o (.ok svc) (.ok hh) dns with e | l
  · by_cases hlb : getLoadBalancerEndpoint svc = "" <;>
      by_cases hcl : getClusterInternalEndpoint o svc ≠ "" ∧ dns = true <;>
      simp [getAllEndpoints, getAPIProxyEndpoint, hlb, hcl] at hres
  · refine ⟨l, rfl, ?_⟩
    by_cases hlb : getLoadBalancerEndpoint svc = "" <;>
      by_cases hcl : getClusterInternalEndpoint o svc ≠ "" ∧ dns = true <;>
      simp [getAllEndpoints, getAPIProxyEndpoint, hlb, hcl] at hres <;>
      · rcases hres with rfl
        first
          | exact ⟨_, List.mem_cons_self _ _, rfl⟩
          | exact ⟨_, List.mem_cons_of_mem _ (List.mem_cons_self _ _), rfl⟩

/-- The fields of `ChatOptions` (chat.go) used by the embedded logic. -/
structure ChatOptions where
  workspaceName : String
  namespaceName : String
  temperature : ℚ
  maxTokens : Int
  topP : ℚ
deriving Repr, DecidableEq

/-- Embedding of `ChatOptions.getAPIProxyEndpoint` (chat.go): same construction as the
get-endpoint command, from the chat options. -/
def chatAPIProxyEndpoint (o : ChatOptions) (host : Except String String) :
    Except String String :=
  match host with
  | .error e => .error ("failed to get REST config: " ++ e)
  | .ok h =>
    let namespaceName := if o.namespaceName = "" then "default" else o.namespaceName
    .ok (trimSuffix h "/" ++ "/api/v1/namespaces/" ++ namespaceName ++
         "/services/" ++ o.workspaceName ++ ":80/proxy")

/-- Embedding of `ChatOptions.getInferenceEndpoint` (chat.go): fail when the Service has
no usable cluster IP; otherwise use the cluster-internal hostname when the
DNS probe (`canAccessClusterEndpoint`, modelled by `dnsResolves`) succeeds,
else fall back to the API-proxy URL; append `/v1/chat/completions`. -/
def getInferenceEndpoint (o : ChatOptions) (svcFetch : Except String Service)
    (dnsResolves : Bool) (host : Except String String) : Except String String :=
  match svcFetch with
  | .error e =>
    .error ("failed to get service for workspace " ++ o.workspaceName ++ ": " ++ e)
  | .ok svc =>
    if svc.clusterIP = "" ∨ svc.clusterIP = "None" then
      .error ("service " ++ o.workspaceName ++ " has no cluster IP")
    else
      let clusterEndpoint :=
        "http://" ++ o.workspaceName ++ "." ++ o.namespaceName ++ ".svc.cluster.local:80"
      let baseEndpoint : Except String String :=
        if dnsResolves then .ok clusterEndpoint
        else
          match chatAPIProxyEndpoint o host with
          | .error e => .error ("failed to get API proxy endpoint: " ++ e)
          | .ok apiProxyEndpoint => .ok apiProxyEndpoint
      match baseEndpoint with
      | .error e => .error e
      | .ok base => .ok (base ++ "/v1/chat/completions")

/-- C8: with a usable cluster IP, the chat endpoint is the cluster-internal
URL plus `/v1/chat/completions` when the DNS probe succeeds, else the
API-proxy URL plus the same suffix; the result depends on the Service only
through its cluster IP, so a LoadBalancer ingress is never used. -/
theorem getInferenceEndpoint_spec (o : ChatOptions) (svc : Service)
    (h1 : svc.clusterIP ≠ "") (h2 : svc.clusterIP ≠ "None") :
    (∀ host, getInferenceEndpoint o (.ok svc) true host =
        .ok ("http://" ++ o.workspaceName ++ "." ++ o.namespaceName ++
             ".svc.cluster.local:80" ++ "/v1/chat/completions")) ∧
    (∀ hh, getInferenceEndpoint o (.ok svc) false (.ok hh) =
        .ok (trimSuffix hh "/" ++ "/api/v1/namespaces/" ++
             (if o.namespaceName = "" then "default" else o.namespaceName) ++
             "/services/" ++ o.workspaceName ++ ":80/proxy" ++
             "/v1/chat/completions")) ∧
    (∀ (svc' : Service) (dnsResolves : Bool) host,
      svc'.clusterIP = svc.clusterIP →
      getInferenceEndpoint o (.ok svc') dnsResolves host =
        getInferenceEndpoint o (.ok svc) dnsResolves host) := by
  refine ⟨?_, ?_, ?_⟩
  · intro host
    simp [getInferenceEndpoint, h1, h2]
  · intro hh
    simp [getInferenceEndpoint, chatAPIProxyEndpoint, h1, h2]
  · intro svc' dnsResolves host hcip
    simp only [getInferenceEndpoint, hcip]

/-- Witness for C8 at a concrete service and both DNS-probe outcomes. -/
theorem getInferenceEndpoint_spec_witness :
    ("10.0.0.5" : String) ≠ "" ∧ ("10.0.0.5" : String) ≠ "None" ∧
    getInferenceEndpoint ⟨"my-ws", "default", 7/10, 1024, 9/10⟩
        (.ok ⟨"ClusterIP", "10.0.0.5", []⟩) true (.error "e") =
      .ok "http://my-ws.default.svc.cluster.local:80/v1/chat/completions" ∧
    getInferenceEndpoint ⟨"my-ws", "default", 7/10, 1024, 9/10⟩
        (.ok ⟨"ClusterIP", "10.0.0.5", []⟩) false (.ok "https://api.example.com") =
      .ok "https://api.example.com/api/v1/namespaces/default/services/my-ws:80/proxy/v1/chat/completions" := by
  refine ⟨by decide, by decide, ?_, ?_⟩
  · have h := (getInferenceEndpoint_spec ⟨"my-ws", "default", 7/10, 1024, 9/10⟩
      ⟨"ClusterIP", "10.0.0.5", []⟩ (by decide) (by decide)).1 (.error "e")
    simpa using h
  · have h := (getInferenceEndpoint_spec ⟨"my-ws", "default", 7/10, 1024, 9/10⟩
      ⟨"ClusterIP", "10.0.0.5", []⟩ (by decide) (by decide)).2.1 "https://api.example.com"
    simpa using h

/-- C10 (implicit): a headless Service (cluster IP empty or "None") makes
the chat command fail immediately with the no-cluster-IP error for every
DNS-probe outcome and API-server base, with no API-proxy fallback, even
though the get-endpoint Enumerator still returns an API-proxy endpoint for
the same Service. -/
theorem chatHeadlessService_spec (o : ChatOptions) (format : String)
    (svc : Service) (dnsResolves : Bool) (host : Except String String)
    (hh : String)
    (hcip : svc.clusterIP = "" ∨ svc.clusterIP = "None")
    (hhost : host = .ok hh) :
    getInferenceEndpoint o (.ok svc) dnsResolves host =
      .error ("service " ++ o.workspaceName ++ " has no cluster IP") ∧
    ∃ l, getAllEndpoints ⟨o.workspaceName, o.namespaceName, format⟩
          (.ok svc) host dnsResolves = .ok l ∧
        ∃ ep ∈ l, ep.type = "APIProxy" := by
  constructor
  · simp only [getInferenceEndpoint, if_pos hcip]
  · subst hhost
    exact getAllEndpoints_proxy_mem ⟨o.workspaceName, o.namespaceName, format⟩
      svc hh dnsResolves

/-- Witness for C10 at a concrete headless service. -/
theorem chatHeadlessService_spec_witness :
    (("None" : String) = "" ∨ ("None" : String) = "None") ∧
    getInferenceEndpoint ⟨"my-ws", "default", 7/10, 1024, 9/10⟩
        (.ok ⟨"ClusterIP", "None", []⟩) false (.ok "https://api.example.com") =
      .error "service my-ws has no cluster IP" ∧
    (∃ l, getAllEndpoints ⟨"my-ws", "default", "url"⟩
          (.ok ⟨"ClusterIP", "None", []⟩) (.ok "https://api.example.com") false = .ok l ∧
        ∃ ep ∈ l, ep.type = "APIProxy") := by
  have h := chatHeadlessService_spec ⟨"my-ws", "default", 7/10, 1024, 9/10⟩ "url"
    ⟨"ClusterIP", "None", []⟩ false (.ok "https://api.example.com")
    "https://api.example.com" (Or.inr rfl) rfl
  exact ⟨Or.inr rfl, by simpa using h.1, h.2⟩

/-- Leading sign of a numeric literal: strip one optional `+`/`-`
(first component: the number is negated). -/
def splitSign : List Char → Bool × List Char
  | '-' :: rest => (true, rest)
  | '+' :: rest => (false, rest)
  | cs => (false, cs)

def allDigits (cs : List Char) : Bool := cs.all (fun c => c.isDigit)

def digitsVal (cs : List Char) : ℕ :=
  cs.foldl (fun acc c => acc * 10 + (c.toNat - 48)) 0

/-- Split at the first character satisfying `p`: the part before it, and
(when found) the part after it. -/
def splitAtChar (p : Char → Bool) : List Char → List Char × Option (List Char)
  | [] => ([], none)
  | c :: rest =>
    if p c then ([], some rest)
    else
      let (before, after) := splitAtChar p rest
      (c :: before, after)

/-- Structural floor-log2 with explicit fuel (the fuel `n` itself always
suffices, since log2 n ≤ n); `Nat.log2` is avoided only because its
well-founded recursion does not reduce in the kernel. -/
def log2Fuel : ℕ → ℕ → ℕ
  | 0, _ => 0
  | fuel + 1, n => if n ≤ 1 then 0 else log2Fuel fuel (n / 2) + 1

/-- Floor of log2 n (0 for n = 0). -/
def natLog2 (n : ℕ) : ℕ := log2Fuel n n

/-- Round a/b (b > 0) to the nearest integer, ties to even. -/
def roundNearestEven (a b : ℕ) : ℕ :=
  let q := a / b
  let r := a % b
  if 2 * r < b then q
  else if b < 2 * r then q + 1
  else if q % 2 = 0 then q else q + 1

/-- Test 2^k ≤ p/q for p, q ≥ 1. -/
def pow2Le (k : ℤ) (p q : ℕ) : Bool :=
  if 0 ≤ k then decide (q * 2 ^ k.toNat ≤ p) else decide (q ≤ p * 2 ^ (-k).toNat)

/-- The binary exponent of p/q (p, q ≥ 1): the unique e with
2^e ≤ p/q < 2^(e+1).  With d = ⌊log2 p⌋ − ⌊log2 q⌋ the exponent is d or
d − 1, settled by one comparison. -/
def binExp (p q : ℕ) : ℤ :=
  let c : ℤ := (natLog2 p : ℤ) - (natLog2 q : ℤ)
  if pow2Le c p q then c else c - 1

/-- IEEE 754 binary64 rounding of the positive rational p/q (round to
nearest, ties to even), as performed by `strconv.ParseFloat`: `none` when
the value rounds to infinity (ParseFloat reports `ErrRange` exactly then),
otherwise the significand m and scale of the resulting float, whose exact
value is m·2^scale.  The scale is e − 52 for a normal result and −1074 for
a subnormal one; values at or below half the smallest subnormal round to
m = 0, which ParseFloat returns as zero with a nil error (its range flag
is set only in the overflow path, e.g. ParseFloat("1e-350", 64) = (0, nil)
per the strconv tests). -/
def roundF64 (p q : ℕ) : Option (ℕ × ℤ) :=
  let e := binExp p q
  let scale : ℤ := max (e - 52) (-1074)
  let m := roundNearestEven (p * 2 ^ (max 0 (-scale)).toNat)
                            (q * 2 ^ (max 0 scale).toNat)
  if 2 ^ ((1024 - scale).toNat) ≤ m then none
  else some (m, scale)

def hexDigit (c : Char) : Bool :=
  c.isDigit || ('a' ≤ c.toLower && c.toLower ≤ 'f')

def allHexDigits (cs : List Char) : Bool := cs.all hexDigit

def hexVal (c : Char) : ℕ :=
  if c.isDigit then c.toNat - 48 else c.toLower.toNat - 87

def hexDigitsVal (cs : List Char) : ℕ :=
  cs.foldl (fun acc c => acc * 16 + hexVal c) 0

/-- Exponent-digit accumulation of strconv `readFloat`: once the running
value reaches 10000 further digits stop changing it (any such exponent is
far outside float64 range in the same direction, so the clamp never
changes the parse outcome). -/
def expDigitsVal (cs : List Char) : ℕ :=
  cs.foldl (fun e c => if e < 10000 then e * 10 + (c.toNat - 48) else e) 0

/-- State of the strconv `underscoreOK` scan: what the previous character
was. -/
inductive DigitSaw where
  | start
  | digit
  | afterUnderscore
  | other
deriving Repr, DecidableEq

/-- Main loop of strconv `underscoreOK`: an underscore may appear only
immediately after a digit (or the base prefix) and must be followed by a
digit. -/
def underscoreOKLoop (hexok : Bool) : DigitSaw → List Char → Bool
  | saw, [] => saw ≠ DigitSaw.afterUnderscore
  | saw, c :: rest =>
    if c.isDigit || (hexok && hexDigit c) then underscoreOKLoop hexok .digit rest
    else if c = '_' then
      if saw = DigitSaw.digit then underscoreOKLoop hexok .afterUnderscore rest
      else false
    else if saw = DigitSaw.afterUnderscore then false
    else underscoreOKLoop hexok .other rest

/-- Embedding of strconv `underscoreOK`: underscores in a numeric literal
must separate digits (or follow the `0b`/`0o`/`0x` base prefix). -/
def underscoreOK (cs0 : List Char) : Bool :=
  let cs := match cs0 with
    | '+' :: rest => rest
    | '-' :: rest => rest
    | rest => rest
  match cs with
  | '0' :: b :: rest =>
    if b.toLower = 'b' ∨ b.toLower = 'o' ∨ b.toLower = 'x' then
      underscoreOKLoop (b.toLower = 'x') DigitSaw.digit rest
    else underscoreOKLoop false DigitSaw.start cs
  | _ => underscoreOKLoop false DigitSaw.start cs

/-- Result of `strconv.ParseFloat` before valuation, in kernel-computable
form: a finite float as sign, significand and binary scale, or one of the
special values. -/
inductive F64Core where
  | fin (neg : Bool) (m : ℕ) (scale : ℤ)
  | pinf
  | ninf
  | cnan
deriving Repr, DecidableEq

/-- A Go float64 as consumed by `setParameter`: a finite value as its
exact rational, or a special value.  The sign of a zero is abstracted
(−0 is `num 0`): IEEE 754 compares −0 equal to 0, so the range checks and
the stored parameter value are unaffected. -/
inductive F64 where
  | num (q : ℚ)
  | posInf
  | negInf
  | nan
deriving Repr, DecidableEq

/-- Exact value of a parsed float. -/
def F64Core.val : F64Core → F64
  | .fin neg m scale =>
    .num ((if neg then -1 else 1) * (m : ℚ) * (2 : ℚ) ^ scale)
  | .pinf => .posInf
  | .ninf => .negInf
  | .cnan => .nan

/-- The Go comparison `f >= c` on float64 (c a finite constant such as
0.0, exactly representable): false for NaN. -/
def F64.geRat : F64 → ℚ → Bool
  | .num q, c => decide (c ≤ q)
  | .posInf, _ => true
  | .negInf, _ => false
  | .nan, _ => false

/-- The Go comparison `f <= c` on float64 (c a finite constant such as
2.0, exactly representable): false for NaN. -/
def F64.leRat : F64 → ℚ → Bool
  | .num q, c => decide (q ≤ c)
  | .posInf, _ => false
  | .negInf, _ => true
  | .nan, _ => false

/-- Exact rational value of a finite float (the non-finite cases are never
stored: every range check in `setParameter` excludes them). -/
def F64.toRat : F64 → ℚ
  | .num q => q
  | _ => 0

/-- Case-insensitive (ASCII) comparison with a literal. -/
def lowerEq (cs : List Char) (lit : String) : Bool :=
  decide (cs.map Char.toLower = lit.data)

/-- Embedding of strconv `special`: "Inf"/"Infinity" with an optional
sign, or an unsigned "NaN", all case-insensitively; a sign followed by
"nan" is not special (the Go switch falls through to the infinity check
only). -/
def parseSpecialCore (cs : List Char) : Option F64Core :=
  match cs with
  | [] => none
  | c :: rest =>
    if c = '+' ∨ c = '-' then
      if lowerEq rest "inf" ∨ lowerEq rest "infinity" then
        some (if c = '-' then F64Core.ninf else F64Core.pinf)
      else none
    else if lowerEq cs "inf" ∨ lowerEq cs "infinity" then some F64Core.pinf
    else if lowerEq cs "nan" then some F64Core.cnan
    else none

/-- Final step of the numeric parse: the exact value ±(d·base^e) (base 10
for decimal, 2 for hexadecimal input) rounded to binary64; `none` is the
overflow `ErrRange`. -/
def finishFloatCore (neg : Bool) (d : ℕ) (base : ℕ) (e : ℤ) : Option F64Core :=
  if d = 0 then some (F64Core.fin neg 0 0)
  else
    let (p, q) := if 0 ≤ e then (d * base ^ e.toNat, 1) else (d, base ^ (-e).toNat)
    match roundF64 p q with
    | none => none
    | some (m, scale) => some (F64Core.fin neg m scale)

/-- Decimal mantissa and optional `e`/`E` exponent, per strconv
`readFloat`: digits with at most one dot (at least one digit overall), and
an exponent of one or more digits with an optional sign. -/
def parseDecCore (neg : Bool) (cs : List Char) : Option F64Core :=
  let (mant, expPart) := splitAtChar (fun c => c = 'e' ∨ c = 'E') cs
  let (intPart, fracOpt) := splitAtChar (fun c => c = '.') mant
  let fracPart := fracOpt.getD []
  if allDigits intPart ∧ allDigits fracPart ∧ (intPart ≠ [] ∨ fracPart ≠ []) then
    let d := digitsVal (intPart ++ fracPart)
    match expPart with
    | none => finishFloatCore neg d 10 (-(fracPart.length : ℤ))
    | some ecs =>
      let (eneg, edigits) := splitSign ecs
      if edigits ≠ [] ∧ allDigits edigits then
        let e : ℤ := if eneg then -(expDigitsVal edigits : ℤ) else (expDigitsVal edigits : ℤ)
        finishFloatCore neg d 10 (e - fracPart.length)
      else none
  else none

/-- Hexadecimal mantissa (after the `0x` prefix) with its mandatory
`p`/`P` power-of-two exponent, per strconv `readFloat`: each hex digit of
the fraction counts four bits. -/
def parseHexCore (neg : Bool) (cs : List Char) : Option F64Core :=
  let (mant, expPart) := splitAtChar (fun c => c = 'p' ∨ c = 'P') cs
  let (intPart, fracOpt) := splitAtChar (fun c => c = '.') mant
  let fracPart := fracOpt.getD []
  if allHexDigits intPart ∧ allHexDigits fracPart ∧ (intPart ≠ [] ∨ fracPart ≠ []) then
    match expPart with
    | none => none
    | some ecs =>
      let (eneg, edigits) := splitSign ecs
      if edigits ≠ [] ∧ allDigits edigits then
        let e : ℤ := if eneg then -(expDigitsVal edigits : ℤ) else (expDigitsVal edigits : ℤ)
        finishFloatCore neg (hexDigitsVal (intPart ++ fracPart)) 2
          (e - 4 * fracPart.length)
      else none
  else none

/-- Numeric branch of strconv `ParseFloat`: optional sign, then the
hexadecimal form when a `0x`/`0X` prefix is followed by at least one more
character (as in `readFloat`), else the decimal form. -/
def parseNumericCore (cs : List Char) : Option F64Core :=
  let (neg, cs) := splitSign cs
  match cs with
  | '0' :: x :: c :: rest =>
    if x.toLower = 'x' then parseHexCore neg (c :: rest)
    else parseDecCore neg ('0' :: x :: c :: rest)
  | cs => parseDecCore neg cs

/-- Embedding of Go `strconv.ParseFloat(value, 64)` up to valuation:
specials first, then underscore validation (`underscoreOK` on the whole
input; the stripped input must parse completely, which coincides with
`readFloat` consuming the whole string), then the numeric grammar on the
input with underscores removed.  `none` covers both `ErrSyntax` and the
overflow `ErrRange` — every outcome `setParameter` treats as a non-nil
error. -/
def parseFloatCore (s : String) : Option F64Core :=
  match parseSpecialCore s.data with
  | some f => some f
  | none =>
    if underscoreOK s.data then
      parseNumericCore (s.data.filter (fun c => c ≠ '_'))
    else none

/-- Embedding of Go `strconv.ParseFloat(value, 64)`: `some` is a nil
error, and the payload is the exact value of the returned float64. -/
def parseFloat (s : String) : Option F64 := (parseFloatCore s).map F64Core.val

/-- Go `strconv.Atoi`: optional sign, decimal digits only, and a value
that fits in a 64-bit int (`Atoi` reports `ErrRange`, a non-nil error,
outside that range). -/
def parseInt (s : String) : Option ℤ :=
  let (neg, cs) := splitSign s.data
  if cs ≠ [] ∧ allDigits cs then
    let v : ℤ := if neg then -(digitsVal cs : ℤ) else (digitsVal cs : ℤ)
    if -(9223372036854775808 : ℤ) ≤ v ∧ v ≤ (9223372036854775807 : ℤ) then some v
    else none
  else none

/-- One message printed by `setParameter` (chat.go), abstracted from its
`fmt.Printf` rendering to its content. -/
inductive ChatPrinted where
  | temperatureSet (v : ℚ)
  | invalidTemperature
  | maxTokensSet (n : ℤ)
  | invalidMaxTokens
  | topPSet (v : ℚ)
  | invalidTopP
  | unknownParameter (p : String)
  | availableParameters
deriving Repr, DecidableEq

/-- Embedding of `ChatOptions.setParameter` (chat.go): validate and assign one of
temperature/max_tokens/top_p, printing a confirmation on success and a
rejection message (with no state change) otherwise. -/
def setParameter (o : ChatOptions) (param value : String) :
    ChatOptions × List ChatPrinted :=
  match param with
  | "temperature" =>
    match parseFloat value with
    | some temp =>
      if F64.geRat temp 0 && F64.leRat temp 2 then
        ({ o with temperature := temp.toRat }, [.temperatureSet temp.toRat])
      else (o, [.invalidTemperature])
    | none => (o, [.invalidTemperature])
  | "max_tokens" =>
    match parseInt value with
    | some tokens =>
      if 0 < tokens then
        ({ o with maxTokens := tokens }, [.maxTokensSet tokens])
      else (o, [.invalidMaxTokens])
    | none => (o, [.invalidMaxTokens])
  | "top_p" =>
    match parseFloat value with
    | some topP =>
      if F64.geRat topP 0 && F64.leRat topP 1 then
        ({ o with topP := topP.toRat }, [.topPSet topP.toRat])
      else (o, [.invalidTopP])
    | none => (o, [.invalidTopP])
  | p => (o, [.unknownParameter p, .availableParameters])

/-- C7: `/set temperature v` assigns exactly when ParseFloat accepts `v`
(nil error) with a float64 value in [0,2] — which, by the two leading
equivalences, means a finite float whose exact value lies in the range;
`/set max_tokens v` exactly when `v` parses as a positive 64-bit integer;
`/set top_p v` exactly when ParseFloat accepts `v` with a value in [0,1];
every rejection (unparsable, out of range, unknown parameter) prints a
message and leaves all three parameters unchanged; a successful assignment
changes only the named parameter. -/
theorem setParameter_spec (o : ChatOptions) (param value : String) :
    (∀ f : F64, (F64.geRat f 0 && F64.leRat f 2) = true ↔
        ∃ q, f = F64.num q ∧ 0 ≤ q ∧ q ≤ 2) ∧
    (∀ f : F64, (F64.geRat f 0 && F64.leRat f 1) = true ↔
        ∃ q, f = F64.num q ∧ 0 ≤ q ∧ q ≤ 1) ∧
    (param = "temperature" →
      (∀ f, parseFloat value = some f → (F64.geRat f 0 && F64.leRat f 2) = true →
        setParameter o param value =
          ({ o with temperature := f.toRat }, [.temperatureSet f.toRat])) ∧
      (parseFloat value = none →
        setParameter o param value = (o, [.invalidTemperature])) ∧
      (∀ f, parseFloat value = some f → (F64.geRat f 0 && F64.leRat f 2) = false →
        setParameter o param value = (o, [.invalidTemperature]))) ∧
    (param = "max_tokens" →
      (∀ n, parseInt value = some n → 0 < n →
        setParameter o param value =
          ({ o with maxTokens := n }, [.maxTokensSet n])) ∧
      (parseInt value = none →
        setParameter o param value = (o, [.invalidMaxTokens])) ∧
      (∀ n, parseInt value = some n → ¬ 0 < n →
        setParameter o param value = (o, [.invalidMaxTokens]))) ∧
    (param = "top_p" →
      (∀ f, parseFloat value = some f → (F64.geRat f 0 && F64.leRat f 1) = true →
        setParameter o param value =
          ({ o with topP := f.toRat }, [.topPSet f.toRat])) ∧
      (parseFloat value = none →
        setParameter o param value = (o, [.invalidTopP])) ∧
      (∀ f, parseFloat value = some f → (F64.geRat f 0 && F64.leRat f 1) = false →
        setParameter o param value = (o, [.invalidTopP]))) ∧
    (param ≠ "temperature" → param ≠ "max_tokens" → param ≠ "top_p" →
      setParameter o param value =
        (o, [.unknownParameter param, .availableParameters])) := by
  refine ⟨?_, ?_, ?_, ?_, ?_, ?_⟩
  · intro f
    cases f <;> simp [F64.geRat, F64.leRat]
  · intro f
    cases f <;> simp [F64.geRat, F64.leRat]
  · rintro rfl
    refine ⟨?_, ?_, ?_⟩
    · intro f hf hg
      simp [setParameter, hf, hg]
    · intro hf
      simp [setParameter, hf]
    · intro f hf hg
      simp [setParameter, hf, hg]
  · rintro rfl
    refine ⟨?_, ?_, ?_⟩
    · intro n hn hpos
      simp [setParameter, hn, hpos]
    · intro hn
      simp [setParameter, hn]
    · intro n hn hpos
      simp [setParameter, hn, hpos]
  · rintro rfl
    refine ⟨?_, ?_, ?_⟩
    · intro f hf hg
      simp [setParameter, hf, hg]
    · intro hf
      simp [setParameter, hf]
    · intro f hf hg
      simp [setParameter, hf, hg]
  · intro h1 h2 h3
    simp only [setParameter]

/-- Witness for C7: `/set temperature 3.0` is rejected with no state
change; `/set temperature 1.5` updates the temperature to 1.5; the
hexadecimal literal `0x1p-1` is accepted by ParseFloat and sets the
temperature to 0.5; `2.0000000000000001` rounds to the float64 2.0 and is
accepted; and `/set bogus x` is rejected as unknown. -/
theorem setParameter_spec_witness :
    parseFloat "3.0" = some (F64.num 3) ∧
    setParameter ⟨"my-ws", "default", 7/10, 1024, 9/10⟩ "temperature" "3.0" =
      (⟨"my-ws", "default", 7/10, 1024, 9/10⟩, [.invalidTemperature]) ∧
    parseFloat "1.5" = some (F64.num (3/2)) ∧
    setParameter ⟨"my-ws", "default", 7/10, 1024, 9/10⟩ "temperature" "1.5" =
      (⟨"my-ws", "default", 3/2, 1024, 9/10⟩, [.temperatureSet (3/2)]) ∧
    parseFloat "0x1p-1" = some (F64.num (1/2)) ∧
    setParameter ⟨"my-ws", "default", 7/10, 1024, 9/10⟩ "temperature" "0x1p-1" =
      (⟨"my-ws", "default", 1/2, 1024, 9/10⟩, [.temperatureSet (1/2)]) ∧
    parseFloat "2.0000000000000001" = some (F64.num 2) ∧
    setParameter ⟨"my-ws", "default", 7/10, 1024, 9/10⟩ "temperature"
        "2.0000000000000001" =
      (⟨"my-ws", "default", 2, 1024, 9/10⟩, [.temperatureSet 2]) ∧
    setParameter ⟨"my-ws", "default", 7/10, 1024, 9/10⟩ "bogus" "1.5" =
      (⟨"my-ws", "default", 7/10, 1024, 9/10⟩,
       [.unknownParameter "bogus", .availableParameters]) := by
  have h3 : parseFloat "3.0" = some (F64.num 3) := by
    have hc : parseFloatCore "3.0" = some (F64Core.fin false (3 * 2 ^ 51) (-51)) := by
      decide
    rw [parseFloat, hc]
    simp [F64Core.val]
    norm_num
  have h15 : parseFloat "1.5" = some (F64.num (3/2)) := by
    have hc : parseFloatCore "1.5" = some (F64Core.fin false (3 * 2 ^ 51) (-52)) := by
      decide
    rw [parseFloat, hc]
    simp [F64Core.val]
    norm_num
  have hhex : parseFloat "0x1p-1" = some (F64.num (1/2)) := by
    have hc : parseFloatCore "0x1p-1" = some (F64Core.fin false (2 ^ 52) (-53)) := by
      decide
    rw [parseFloat, hc]
    simp [F64Core.val]
    norm_num
  have hround : parseFloat "2.0000000000000001" = some (F64.num 2) := by
    have hc : parseFloatCore "2.0000000000000001" =
        some (F64Core.fin false (2 ^ 52) (-51)) := by
      decide
    rw [parseFloat, hc]
    simp [F64Core.val]
    norm_num
  refine ⟨h3, ?_, h15, ?_, hhex, ?_, hround, ?_, ?_⟩
  · exact ((setParameter_spec ⟨"my-ws", "default", 7/10, 1024, 9/10⟩
      "temperature" "3.0").2.2.1 rfl).2.2 (F64.num 3) h3
      (by norm_num [F64.geRat, F64.leRat])
  · exact ((setParameter_spec ⟨"my-ws", "default", 7/10, 1024, 9/10⟩
      "temperature" "1.5").2.2.1 rfl).1 (F64.num (3/2)) h15
      (by norm_num [F64.geRat, F64.leRat])
  · exact ((setParameter_spec ⟨"my-ws", "default", 7/10, 1024, 9/10⟩
      "temperature" "0x1p-1").2.2.1 rfl).1 (F64.num (1/2)) hhex
      (by norm_num [F64.geRat, F64.leRat])
  · exact ((setParameter_spec ⟨"my-ws", "default", 7/10, 1024, 9/10⟩
      "temperature" "2.0000000000000001").2.2.1 rfl).1 (F64.num 2) hround
      (by norm_num [F64.geRat, F64.leRat])
  · exact (setParameter_spec ⟨"my-ws", "default", 7/10, 1024, 9/10⟩
      "bogus" "1.5").2.2.2.2.2 (by decide) (by decide) (by decide)

/-- Embedding of `GetEndpointOptions.checkWorkspaceReady` (get_endpoint.go): fail when
the workspace fetch fails, when the fetched object has no `status` field,
or when `isWorkspaceReady` is false.  The trailing usage-hint text of the
Go not-ready message is elided. -/
def checkWorkspaceReady (workspaceName : String)
    (wsFetch : Except String (List (String × JValue))) : Option String :=
  match wsFetch with
  | .error e => some ("failed to get workspace " ++ workspaceName ++ ": " ++ e)
  | .ok wsObject =>
    match jLookup wsObject "status" with
    | none => some ("workspace " ++ workspaceName ++ " has no status information")
    | some status =>
      if isWorkspaceReady status then none
      else some ("workspace " ++ workspaceName ++ " is not ready yet")

/-- Embedding of `GetEndpointOptions.run` (get_endpoint.go): namespace resolution, the
readiness gate, endpoint enumeration, and output.  `kubeNs` is the
namespace reported by the kubeconfig loader ("" when absent or failing);
client construction (lines 126-135) is assumed to succeed, as
`NewForConfig` fails only on malformed configs.  At the readiness gate the
Go code tests `err2 := o.checkWorkspaceReady(...)` but then executes
`return err`, where `err` is the (nil) error of the preceding
`kubernetes.NewForConfig` call — so a failed readiness check returns nil;
this slip is modelled faithfully. -/
def getEndpointRun (o : GetEndpointOptions) (kubeNs : String)
    (wsFetch : Except String (List (String × JValue)))
    (svcFetch : Except String Service)
    (host : Except String String)
    (dnsResolves : Bool) : RunOutcome :=
  let namespaceName :=
    if o.namespaceName = "" then (if kubeNs ≠ "" then kubeNs else "default")
    else o.namespaceName
  let o := { o with namespaceName := namespaceName }
  match host with
  | .error e => ⟨some ("failed to get REST config: " ++ e), []⟩
  | .ok _ =>
    match checkWorkspaceReady o.workspaceName wsFetch with
    | some _ => ⟨none, []⟩
    | none =>
      match getAllEndpoints o svcFetch host dnsResolves with
      | .error e => ⟨some e, []⟩
      | .ok endpoints =>
        if o.format = "json" then
          ⟨none, [.jsonDump o.workspaceName o.namespaceName endpoints]⟩
        else urlFormatOutput o.workspaceName endpoints

/-- C1 (code bug): for a successfully fetched workspace that is not ready
(here: no `status` field), `checkWorkspaceReady` does produce an error,
but `run` terminates with a nil error and prints nothing — the Go code
returns the shadowed outer `err` (nil at that point) instead of `err2`,
so no non-nil NotReady error reaches the caller. -/
theorem getEndpointRun_notReady_nil_error :
    checkWorkspaceReady "my-ws" (.ok [("spec", JValue.obj [])]) =
      some "workspace my-ws has no status information" ∧
    getEndpointRun ⟨"my-ws", "default", "url"⟩ ""
        (.ok [("spec", JValue.obj [])]) (.ok ⟨"ClusterIP", "10.0.0.5", []⟩)
        (.ok "https://api.example.com") false =
      ⟨none, []⟩ := by
  exact ⟨rfl, rfl⟩

/-- Map assignment `fields[key] = v` on a Go map modelled as an
association list (replace the existing binding or append a new one). -/
def jSet (fields : List (String × JValue)) (key : String) (v : JValue) :
    List (String × JValue) :=
  match fields with
  | [] => [(key, v)]
  | (k, w) :: rest => if k = key then (k, v) :: rest else (k, w) :: jSet rest key v

lemma jLookup_jSet (fields : List (String × JValue)) (key key2 : String) (v : JValue) :
    jLookup (jSet fields key v) key2 =
      if key2 = key then some v else jLookup fields key2 := by
  induction fields with
  | nil => simp [jSet, jLookup, eq_comm]
  | cons kv rest ih =>
    rcases kv with ⟨k, w⟩
    simp only [jSet]
    by_cases hk : k = key
    · subst hk
      by_cases h2 : key2 = k <;> simp [jLookup, h2, eq_comm]
    · by_cases h2 : k = key2
      · have hne : ¬ key2 = key := fun hh => hk (h2.trans hh)
        simp [jLookup, if_neg hk, if_pos h2, hne]
      · simp [jLookup, if_neg hk, if_neg h2, ih]

lemma jLookup_append (l1 l2 : List (String × JValue)) (key : String) :
    jLookup (l1 ++ l2) key =
      match jLookup l1 key with
      | some v => some v
      | none => jLookup l2 key := by
  induction l1 with
  | nil => simp [jLookup]
  | cons kv rest ih =>
    rcases kv with ⟨k, w⟩
    by_cases h : k = key <;> simp [jLookup, h, ih]

lemma jLookup_append_left (l1 l2 : List (String × JValue)) (key : String)
    (v : JValue) (h : jLookup l1 key = some v) :
    jLookup (l1 ++ l2) key = some v := by
  rw [jLookup_append, h]

/-- The flag fields of `DeployOptions` (deploy.go). -/
structure DeployOptions where
  workspaceName : String
  namespaceName : String
  model : String
  instanceType : String
  count : Int
  labelSelector : List (String × String)
  modelAccessSecret : String
  adapters : List String
  inferenceConfig : String
  tuning : Bool
  tuningMethod : String
  modelImage : String
  inputURLs : List String
  outputImage : String
  outputImageSecret : String
  tuningConfig : String
  inputPVC : String
  outputPVC : String
  dryRun : Bool
  enableLoadBalancer : Bool
deriving Repr, DecidableEq

/-- Embedding of `ValidateModelName` (models.go) against a supported-models list (the
list itself is fetched over HTTP at run time, so it is a parameter here);
the suggestion text of the Go error message is elided. -/
def validateModelName (models : List String) (modelName : String) : Option String :=
  if modelName = "" then some "model name cannot be empty"
  else if models.contains modelName then none
  else some ("model " ++ modelName ++ " is not supported by Kaito")

/-- Embedding of `DeployOptions.validateModeFlags` (deploy.go): inference-specific flags
are rejected in tuning mode and tuning-specific flags in inference mode,
in the order the Go slices list them. -/
def validateModeFlags (o : DeployOptions) : Option String :=
  if o.tuning then
    if o.modelAccessSecret ≠ "" then
      some "cannot use inference flag --model-access-secret when --tuning is enabled"
    else if o.adapters ≠ [] then
      some "cannot use inference flag --adapters when --tuning is enabled"
    else if o.inferenceConfig ≠ "" then
      some "cannot use inference flag --inference-config when --tuning is enabled"
    else if o.enableLoadBalancer then
      some "cannot use inference flag --enable-load-balancer when --tuning is enabled"
    else none
  else
    if o.inputURLs ≠ [] then
      some "tuning flag --input-urls can only be used with --tuning enabled"
    else if o.outputImage ≠ "" then
      some "tuning flag --output-image can only be used with --tuning enabled"
    else if o.outputImageSecret ≠ "" then
      some "tuning flag --output-image-secret can only be used with --tuning enabled"
    else if o.tuningConfig ≠ "" then
      some "tuning flag --tuning-config can only be used with --tuning enabled"
    else if o.inputPVC ≠ "" then
      some "tuning flag --input-pvc can only be used with --tuning enabled"
    else if o.outputPVC ≠ "" then
      some "tuning flag --output-pvc can only be used with --tuning enabled"
    else if o.modelImage ≠ "" then
      some "tuning flag --model-image can only be used with --tuning enabled"
    else none

/-- Embedding of `DeployOptions.Validate` (deploy.go). -/
def deployValidate (models : List String) (o : DeployOptions) : Option String :=
  if o.workspaceName = "" then some "workspace name is required"
  else if o.model = "" then some "model name is required"
  else
    match validateModelName models o.model with
    | some e => some e
    | none =>
      match validateModeFlags o with
      | some e => some e
      | none =>
        if o.tuning then
          if o.inputURLs = [] ∧ o.inputPVC = "" then
            some "tuning mode requires either --input-urls or --input-pvc"
          else if o.outputImage = "" ∧ o.outputPVC = "" then
            some "tuning mode requires either --output-image or --output-pvc"
          else none
        else none

/-- Embedding of `DeployOptions.initWorkspaceObject` (deploy.go): SetAPIVersion,
SetKind, SetName and SetNamespace on a fresh unstructured object. -/
def initWorkspaceObject (o : DeployOptions) : List (String × JValue) :=
  [("apiVersion", .str "kaito.sh/v1beta1"),
   ("kind", .str "Workspace"),
   ("metadata", .obj [("name", .str o.workspaceName),
                      ("namespace", .str o.namespaceName)])]

/-- The `resource` map built by `DeployOptions.setResourceConfig`
(deploy.go).  A Go conditional that appends a map entry is written as
appending a conditional singleton. -/
def resourceMapOf (o : DeployOptions) : List (String × JValue) :=
  let matchLabels : JValue :=
    if o.labelSelector ≠ [] then
      .obj (o.labelSelector.map (fun kv => (kv.1, JValue.str kv.2)))
    else .obj [("kaito.sh/workspace", .str o.workspaceName)]
  [("instanceType", JValue.str o.instanceType),
   ("labelSelector", JValue.obj [("matchLabels", matchLabels)])] ++
  (if 0 < o.count then [("count", JValue.num (o.count : ℚ))] else [])

/-- Embedding of `DeployOptions.setResourceConfig` (deploy.go). -/
def setResourceConfig (o : DeployOptions) (workspace : List (String × JValue)) :
    List (String × JValue) :=
  jSet workspace "resource" (.obj (resourceMapOf o))

/-- The `preset` map of `DeployOptions.setTuningConfig` (deploy.go). -/
def tuningPresetOf (o : DeployOptions) : List (String × JValue) :=
  [("name", JValue.str o.model)] ++
  (if o.modelImage ≠ "" then
     [("presetOptions", JValue.obj [("image", .str o.modelImage)])]
   else [])

/-- The `tuning` map of `DeployOptions.setTuningConfig` (deploy.go) after
the method, preset, input and output blocks. -/
def tuningMapBase (o : DeployOptions) : List (String × JValue) :=
  (if o.tuningMethod ≠ "" then [("method", JValue.str o.tuningMethod)] else []) ++
  (if o.model ≠ "" then [("preset", JValue.obj (tuningPresetOf o))] else []) ++
  (if o.inputURLs ≠ [] then
     [("input", JValue.obj [("urls", .arr (o.inputURLs.map JValue.str))])]
   else if o.inputPVC ≠ "" then
     [("input", JValue.obj [("pvc", .str o.inputPVC)])]
   else []) ++
  (if o.outputImage ≠ "" then
     [("output", JValue.obj [("image", .str o.outputImage)])]
   else if o.outputPVC ≠ "" then
     [("output", JValue.obj [("pvc", .str o.outputPVC)])]
   else [])

/-- The `tuning` map after the output-image-secret block (which creates
the `output` map when absent and sets `imageSecret` on it). -/
def tuningMapWithSecret (o : DeployOptions) : List (String × JValue) :=
  if o.outputImageSecret ≠ "" then
    match jLookup (tuningMapBase o) "output" with
    | some (.obj outputMap) =>
      jSet (tuningMapBase o) "output"
        (.obj (jSet outputMap "imageSecret" (.str o.outputImageSecret)))
    | _ => tuningMapBase o ++
        [("output", JValue.obj [("imageSecret", .str o.outputImageSecret)])]
  else tuningMapBase o

/-- The complete `tuning` map built by `DeployOptions.setTuningConfig`. -/
def tuningMapOf (o : DeployOptions) : List (String × JValue) :=
  tuningMapWithSecret o ++
  (if o.tuningConfig ≠ "" then [("config", JValue.str o.tuningConfig)] else [])

/-- Embedding of `DeployOptions.setTuningConfig` (deploy.go). -/
def setTuningConfig (o : DeployOptions) (workspace : List (String × JValue)) :
    List (String × JValue) :=
  jSet workspace "tuning" (.obj (tuningMapOf o))

/-- The `preset` map of `DeployOptions.setInferenceConfig` (deploy.go). -/
def inferencePresetOf (o : DeployOptions) : List (String × JValue) :=
  [("name", JValue.str o.model)] ++
  (if o.modelAccessSecret ≠ "" then
     [("presetOptions", JValue.obj [("modelAccessSecret", .str o.modelAccessSecret)])]
   else [])

/-- The `inference` map built by `DeployOptions.setInferenceConfig`
(deploy.go).  `fileExists` models the `os.Stat` probe on the
inference-config flag value. -/
def inferenceMapOf (fileExists : String → Bool) (o : DeployOptions) :
    List (String × JValue) :=
  (if o.model ≠ "" then [("preset", JValue.obj (inferencePresetOf o))] else []) ++
  (if o.adapters ≠ [] then [("adapters", JValue.arr (o.adapters.map JValue.str))] else []) ++
  (if o.inferenceConfig ≠ "" then
     [("config", JValue.str
        (if fileExists o.inferenceConfig then o.workspaceName ++ "-inference-config"
         else o.inferenceConfig))]
   else [])

/-- Embedding of `DeployOptions.setInferenceConfig` (deploy.go). -/
def setInferenceConfig (fileExists : String → Bool) (o : DeployOptions)
    (workspace : List (String × JValue)) : List (String × JValue) :=
  jSet workspace "inference" (.obj (inferenceMapOf fileExists o))

/-- Embedding of `DeployOptions.setLoadBalancerAnnotation` (deploy.go): set
`metadata.annotations["kaito.sh/enable-lb"] = "true"`.  The Go code
type-asserts that `metadata` is a map (always true for objects built by
`initWorkspaceObject`); other shapes are left unchanged here. -/
def setLoadBalancerAnnotation (workspace : List (String × JValue)) :
    List (String × JValue) :=
  match jLookup workspace "metadata" with
  | some (.obj metadata) =>
    let annotations :=
      match jLookup metadata "annotations" with
      | some (.obj a) => a
      | _ => []
    jSet workspace "metadata"
      (.obj (jSet metadata "annotations"
        (.obj (jSet annotations "kaito.sh/enable-lb" (.str "true")))))
  | _ => workspace

/-- Embedding of `DeployOptions.buildWorkspace` (deploy.go). -/
def buildWorkspace (fileExists : String → Bool) (o : DeployOptions) :
    List (String × JValue) :=
  let workspace := initWorkspaceObject o
  let workspace := setResourceConfig o workspace
  let workspace :=
    if o.tuning then setTuningConfig o workspace
    else setInferenceConfig fileExists o workspace
  if o.enableLoadBalancer then setLoadBalancerAnnotation workspace else workspace

/-- One line of deploy-command output: plain text, or the YAML rendering of
the built workspace object (the `yaml.Marshal` text is abstracted to the
object it renders). -/
inductive DeployOutput where
  | text (s : String)
  | workspaceYaml (w : List (String × JValue))

/-- Embedding of `DeployOptions.showDryRun` (deploy.go).  `%v` renderings of slices and
maps are abstracted with `toString`/`reprStr`. -/
def showDryRun (fileExists : String → Bool) (o : DeployOptions) : List DeployOutput :=
  [.text "🔍 Dry-run mode: Showing what would be created",
   .text "",
   .text "Workspace Configuration:",
   .text "========================",
   .text ("Name: " ++ o.workspaceName),
   .text ("Namespace: " ++ o.namespaceName),
   .text ("Model: " ++ o.model),
   .text ("Count: " ++ toString o.count)] ++
  (if o.instanceType ≠ "" then [.text ("Instance Type: " ++ o.instanceType)] else []) ++
  (if o.tuning then
    [.text ("Mode: Fine-tuning (" ++ o.tuningMethod ++ ")")] ++
    (if o.inputURLs ≠ [] then [.text ("Input URLs: " ++ toString o.inputURLs)] else []) ++
    (if o.inputPVC ≠ "" then [.text ("Input PVC: " ++ o.inputPVC)] else []) ++
    (if o.outputImage ≠ "" then [.text ("Output Image: " ++ o.outputImage)] else []) ++
    (if o.outputPVC ≠ "" then [.text ("Output PVC: " ++ o.outputPVC)] else []) ++
    (if o.outputImageSecret ≠ "" then
      [.text ("Output Image Secret: " ++ o.outputImageSecret)] else []) ++
    (if o.tuningConfig ≠ "" then [.text ("Tuning Config: " ++ o.tuningConfig)] else [])
  else
    [.text "Mode: Inference"] ++
    (if o.adapters ≠ [] then [.text ("Adapters: " ++ toString o.adapters)] else []) ++
    (if o.modelAccessSecret ≠ "" then
      [.text ("Model Access Secret: " ++ o.modelAccessSecret)] else []) ++
    (if o.inferenceConfig ≠ "" then
      [.text ("Inference Config: " ++ o.inferenceConfig)] else []) ++
    (if o.enableLoadBalancer then [.text "LoadBalancer: Enabled"] else [])) ++
  (if o.labelSelector ≠ [] then
    [.text ("Label Selector: " ++ toString o.labelSelector)] else []) ++
  [.text "",
   .text "✓ Workspace definition is valid",
   .text "",
   .text "Workspace YAML:",
   .text "===============",
   .workspaceYaml (buildWorkspace fileExists o),
   .text "ℹ️  Run without --dry-run to create the workspace"]

/-- Embedding of `DeployOptions.Run` (deploy.go): resolve the namespace, then return
the dry-run output — with zero Kubernetes API calls — before any client is
constructed when `--dry-run` is set; everything after the dry-run check
(REST config, clients, ConfigMap and Workspace creation) is the opaque
continuation `rest`, which returns its own output and its count of
Kubernetes API calls. -/
def deployRun (o : DeployOptions) (kubeNs : String) (fileExists : String → Bool)
    (rest : DeployOptions → List DeployOutput × ℕ) : List DeployOutput × ℕ :=
  let namespaceName :=
    if o.namespaceName = "" then (if kubeNs ≠ "" then kubeNs else "default")
    else o.namespaceName
  let o := { o with namespaceName := namespaceName }
  if o.dryRun then (showDryRun fileExists o, 0)
  else rest o

lemma tuningPresetOf_name (o : DeployOptions) :
    jLookup (tuningPresetOf o) "name" = some (.str o.model) := by
  unfold tuningPresetOf
  exact jLookup_append_left _ _ _ _ rfl

lemma inferencePresetOf_name (o : DeployOptions) :
    jLookup (inferencePresetOf o) "name" = some (.str o.model) := by
  unfold inferencePresetOf
  exact jLookup_append_left _ _ _ _ rfl

lemma tuningMapBase_preset (o : DeployOptions) (hm : o.model ≠ "") :
    jLookup (tuningMapBase o) "preset" = some (.obj (tuningPresetOf o)) := by
  unfold tuningMapBase
  have hA : jLookup
      (if o.tuningMethod ≠ "" then [("method", JValue.str o.tuningMethod)] else [])
      "preset" = none := by
    split <;> rfl
  have hB : jLookup
      (if o.model ≠ "" then [("preset", JValue.obj (tuningPresetOf o))] else [])
      "preset" = some (.obj (tuningPresetOf o)) := by
    rw [if_pos hm]; rfl
  rw [jLookup_append, jLookup_append, jLookup_append, hA, hB]

lemma tuningMapOf_preset (o : DeployOptions) (hm : o.model ≠ "") :
    jLookup (tuningMapOf o) "preset" = some (.obj (tuningPresetOf o)) := by
  have hbase := tuningMapBase_preset o hm
  have hsec : jLookup (tuningMapWithSecret o) "preset" =
      some (.obj (tuningPresetOf o)) := by
    unfold tuningMapWithSecret
    by_cases hs : o.outputImageSecret ≠ ""
    · rw [if_pos hs]
      rcases hout : jLookup (tuningMapBase o) "output" with _ | v
      · exact jLookup_append_left _ _ _ _ hbase
      · cases v with
        | obj outputMap => simp [jLookup_jSet, hbase]
        | str s => exact jLookup_append_left _ _ _ _ hbase
        | num q => exact jLookup_append_left _ _ _ _ hbase
        | jbool b => exact jLookup_append_left _ _ _ _ hbase
        | null => exact jLookup_append_left _ _ _ _ hbase
        | arr l => exact jLookup_append_left _ _ _ _ hbase
    · rw [if_neg hs]
      exact hbase
  exact jLookup_append_left _ _ _ _ hsec

lemma inferenceMapOf_preset (fileExists : String → Bool) (o : DeployOptions)
    (hm : o.model ≠ "") :
    jLookup (inferenceMapOf fileExists o) "preset" =
      some (.obj (inferencePresetOf o)) := by
  unfold inferenceMapOf
  have hB : jLookup
      (if o.model ≠ "" then [("preset", JValue.obj (inferencePresetOf o))] else [])
      "preset" = some (.obj (inferencePresetOf o)) := by
    rw [if_pos hm]; rfl
  exact jLookup_append_left _ _ _ _ (jLookup_append_left _ _ _ _ hB)

lemma setLoadBalancerAnnotation_eq (w : List (String × JValue))
    (metadata : List (String × JValue))
    (hmd : jLookup w "metadata" = some (.obj metadata)) :
    setLoadBalancerAnnotation w =
      jSet w "metadata" (.obj (jSet metadata "annotations"
        (.obj (jSet (match jLookup metadata "annotations" with
                     | some (.obj a) => a
                     | _ => []) "kaito.sh/enable-lb" (.str "true"))))) := by
  unfold setLoadBalancerAnnotation
  rw [hmd]

lemma buildWorkspace_fields (fileExists : String → Bool) (o : DeployOptions)
    (hm : o.model ≠ "") :
    jLookup (buildWorkspace fileExists o) "apiVersion" =
      some (.str "kaito.sh/v1beta1") ∧
    jLookup (buildWorkspace fileExists o) "kind" = some (.str "Workspace") ∧
    (∃ metadata, jLookup (buildWorkspace fileExists o) "metadata" =
        some (.obj metadata) ∧
      jLookup metadata "name" = some (.str o.workspaceName)) ∧
    (∃ modeMap preset,
      jLookup (buildWorkspace fileExists o)
          (if o.tuning then "tuning" else "inference") = some (.obj modeMap) ∧
      jLookup modeMap "preset" = some (.obj preset) ∧
      jLookup preset "name" = some (.str o.model)) := by
  have hw1api : jLookup (setResourceConfig o (initWorkspaceObject o)) "apiVersion" =
      some (.str "kaito.sh/v1beta1") := by
    simp [setResourceConfig, jLookup_jSet, initWorkspaceObject, jLookup]
  have hw1kind : jLookup (setResourceConfig o (initWorkspaceObject o)) "kind" =
      some (.str "Workspace") := by
    simp [setResourceConfig, jLookup_jSet, initWorkspaceObject, jLookup]
  have hw1md : jLookup (setResourceConfig o (initWorkspaceObject o)) "metadata" =
      some (.obj [("name", .str o.workspaceName),
                  ("namespace", .str o.namespaceName)]) := by
    simp [setResourceConfig, jLookup_jSet, initWorkspaceObject, jLookup]
  by_cases ht : o.tuning
  · -- tuning mode
    have hw2api : jLookup (setTuningConfig o (setResourceConfig o (initWorkspaceObject o)))
        "apiVersion" = some (.str "kaito.sh/v1beta1") := by
      simp [setTuningConfig, jLookup_jSet, hw1api]
    have hw2kind : jLookup (setTuningConfig o (setResourceConfig o (initWorkspaceObject o)))
        "kind" = some (.str "Workspace") := by
      simp [setTuningConfig, jLookup_jSet, hw1kind]
    have hw2md : jLookup (setTuningConfig o (setResourceConfig o (initWorkspaceObject o)))
        "metadata" = some (.obj [("name", .str o.workspaceName),
                                 ("namespace", .str o.namespaceName)]) := by
      simp [setTuningConfig, jLookup_jSet, hw1md]
    have hw2mode : jLookup (setTuningConfig o (setResourceConfig o (initWorkspaceObject o)))
        "tuning" = some (.obj (tuningMapOf o)) := by
      simp [setTuningConfig, jLookup_jSet]
    by_cases hlb : o.enableLoadBalancer
    · simp only [buildWorkspace, ht, hlb, if_true]
      rw [setLoadBalancerAnnotation_eq _ _ hw2md]
      refine ⟨by simp [jLookup_jSet, hw2api], by simp [jLookup_jSet, hw2kind], ?_, ?_⟩
      · refine ⟨[("name", .str o.workspaceName), ("namespace", .str o.namespaceName),
                 ("annotations", .obj [("kaito.sh/enable-lb", .str "true")])], ?_, ?_⟩
        · rw [jLookup_jSet]
          simp [jSet, jLookup]
        · simp [jLookup]
      · refine ⟨tuningMapOf o, tuningPresetOf o, ?_,
          tuningMapOf_preset o hm, tuningPresetOf_name o⟩
        simp [ht, jLookup_jSet, hw2mode]
    · simp only [buildWorkspace, ht, hlb, if_true, if_false, Bool.false_eq_true]
      refine ⟨hw2api, hw2kind, ⟨_, hw2md, by simp [jLookup]⟩, ?_⟩
      refine ⟨tuningMapOf o, tuningPresetOf o, ?_,
        tuningMapOf_preset o hm, tuningPresetOf_name o⟩
      simp [ht, hw2mode]
  · -- inference mode
    have hw2api : jLookup (setInferenceConfig fileExists o
        (setResourceConfig o (initWorkspaceObject o)))
        "apiVersion" = some (.str "kaito.sh/v1beta1") := by
      simp [setInferenceConfig, jLookup_jSet, hw1api]
    have hw2kind : jLookup (setInferenceConfig fileExists o
        (setResourceConfig o (initWorkspaceObject o)))
        "kind" = some (.str "Workspace") := by
      simp [setInferenceConfig, jLookup_jSet, hw1kind]
    have hw2md : jLookup (setInferenceConfig fileExists o
        (setResourceConfig o (initWorkspaceObject o)))
        "metadata" = some (.obj [("name", .str o.workspaceName),
                                 ("namespace", .str o.namespaceName)]) := by
      simp [setInferenceConfig, jLookup_jSet, hw1md]
    have hw2mode : jLookup (setInferenceConfig fileExists o
        (setResourceConfig o (initWorkspaceObject o)))
        "inference" = some (.obj (inferenceMapOf fileExists o)) := by
      simp [setInferenceConfig, jLookup_jSet]
    by_cases hlb : o.enableLoadBalancer
    · simp only [buildWorkspace, ht, hlb, if_true, if_false, Bool.false_eq_true]
      rw [setLoadBalancerAnnotation_eq _ _ hw2md]
      refine ⟨by simp [jLookup_jSet, hw2api], by simp [jLookup_jSet, hw2kind], ?_, ?_⟩
      · refine ⟨[("name", .str o.workspaceName), ("namespace", .str o.namespaceName),
                 ("annotations", .obj [("kaito.sh/enable-lb", .str "true")])], ?_, ?_⟩
        · rw [jLookup_jSet]
          simp [jSet, jLookup]
        · simp [jLookup]
      · refine ⟨inferenceMapOf fileExists o, inferencePresetOf o, ?_,
          inferenceMapOf_preset fileExists o hm, inferencePresetOf_name o⟩
        simp [ht, jLookup_jSet, hw2mode]
    · simp only [buildWorkspace, ht, hlb, if_true, if_false, Bool.false_eq_true]
      refine ⟨hw2api, hw2kind, ⟨_, hw2md, by simp [jLookup]⟩, ?_⟩
      refine ⟨inferenceMapOf fileExists o, inferencePresetOf o, ?_,
        inferenceMapOf_preset fileExists o hm, inferencePresetOf_name o⟩
      simp [ht, hw2mode]

lemma deployValidate_names (models : List String) (o : DeployOptions)
    (h : deployValidate models o = none) :
    o.workspaceName ≠ "" ∧ o.model ≠ "" := by
  refine ⟨fun hh => by simp [deployValidate, hh] at h, fun hh => ?_⟩
  by_cases hw : o.workspaceName = ""
  · simp [deployValidate, hw] at h
  · simp [deployValidate, hw, hh] at h

/-- C9: a deploy invocation with `--dry-run` that passes validation makes
zero Kubernetes API calls — its result does not depend on the post-check
continuation at all — and its output contains the literal substring
"Dry-run mode" together with a `kaito.sh/v1beta1 Workspace` object whose
metadata name is the workspace name and whose preset names the model. -/
theorem deployDryRun_spec (models : List String) (o : DeployOptions)
    (kubeNs : String) (fileExists : String → Bool)
    (rest : DeployOptions → List DeployOutput × ℕ)
    (hdry : o.dryRun = true)
    (hvalid : deployValidate models o = none) :
    (deployRun o kubeNs fileExists rest).2 = 0 ∧
    (∀ rest2, deployRun o kubeNs fileExists rest = deployRun o kubeNs fileExists rest2) ∧
    (∃ s1 s2, DeployOutput.text (s1 ++ "Dry-run mode" ++ s2) ∈
        (deployRun o kubeNs fileExists rest).1) ∧
    (∃ w, DeployOutput.workspaceYaml w ∈ (deployRun o kubeNs fileExists rest).1 ∧
      jLookup w "apiVersion" = some (.str "kaito.sh/v1beta1") ∧
      jLookup w "kind" = some (.str "Workspace") ∧
      (∃ metadata, jLookup w "metadata" = some (.obj metadata) ∧
        jLookup metadata "name" = some (.str o.workspaceName)) ∧
      (∃ modeMap preset,
        jLookup w (if o.tuning then "tuning" else "inference") = some (.obj modeMap) ∧
        jLookup modeMap "preset" = some (.obj preset) ∧
        jLookup preset "name" = some (.str o.model))) := by
  obtain ⟨hws, hm⟩ := deployValidate_names models o hvalid
  have hrun : ∀ r : DeployOptions → List DeployOutput × ℕ,
      deployRun o kubeNs fileExists r =
        (showDryRun fileExists
          { o with namespaceName :=
              if o.namespaceName = "" then (if kubeNs ≠ "" then kubeNs else "default")
              else o.namespaceName }, 0) := by
    intro r
    simp [deployRun, hdry]
  refine ⟨by rw [hrun], fun rest2 => by rw [hrun, hrun], ?_, ?_⟩
  · refine ⟨"🔍 ", ": Showing what would be created", ?_⟩
    rw [hrun]
    have heq : ("🔍 " ++ "Dry-run mode" ++ ": Showing what would be created" : String) =
        "🔍 Dry-run mode: Showing what would be created" := rfl
    rw [heq]
    simp [showDryRun]
  · refine ⟨buildWorkspace fileExists
      { o with namespaceName :=
          if o.namespaceName = "" then (if kubeNs ≠ "" then kubeNs else "default")
          else o.namespaceName }, ?_, ?_⟩
    · rw [hrun]
      simp [showDryRun]
    · have hmm : ({ o with namespaceName :=
          if o.namespaceName = "" then (if kubeNs ≠ "" then kubeNs else "default")
          else o.namespaceName } : DeployOptions).model ≠ "" := hm
      have h := buildWorkspace_fields fileExists _ hmm
      exact h

/-- Witness for C9: the concrete dry-run scenario of the spec
(`--workspace-name test --model phi-3.5-mini-instruct --dry-run`), with a
continuation that would perform one API call if it were reached. -/
theorem deployDryRun_spec_witness :
    (DeployOptions.mk "test" "" "phi-3.5-mini-instruct" "" 1 [] "" [] "" false
        "qlora" "" [] "" "" "" "" "" true false).dryRun = true ∧
    deployValidate ["phi-3.5-mini-instruct"]
      (DeployOptions.mk "test" "" "phi-3.5-mini-instruct" "" 1 [] "" [] "" false
        "qlora" "" [] "" "" "" "" "" true false) = none ∧
    ((deployRun
        (DeployOptions.mk "test" "" "phi-3.5-mini-instruct" "" 1 [] "" [] "" false
          "qlora" "" [] "" "" "" "" "" true false)
        "" (fun _ => false) (fun _ => ([], 1))).2 = 0 ∧
     (∃ s1 s2, DeployOutput.text (s1 ++ "Dry-run mode" ++ s2) ∈
        (deployRun
          (DeployOptions.mk "test" "" "phi-3.5-mini-instruct" "" 1 [] "" [] "" false
            "qlora" "" [] "" "" "" "" "" true false)
          "" (fun _ => false) (fun _ => ([], 1))).1) ∧
     (∃ w, DeployOutput.workspaceYaml w ∈
        (deployRun
          (DeployOptions.mk "test" "" "phi-3.5-mini-instruct" "" 1 [] "" [] "" false
            "qlora" "" [] "" "" "" "" "" true false)
          "" (fun _ => false) (fun _ => ([], 1))).1 ∧
       jLookup w "apiVersion" = some (.str "kaito.sh/v1beta1") ∧
       (∃ metadata, jLookup w "metadata" = some (.obj metadata) ∧
         jLookup metadata "name" = some (.str "test")) ∧
       (∃ modeMap preset,
         jLookup w "inference" = some (.obj modeMap) ∧
         jLookup modeMap "preset" = some (.obj preset) ∧
         jLookup preset "name" = some (.str "phi-3.5-mini-instruct")))) := by
  have hv : deployValidate ["phi-3.5-mini-instruct"]
      (DeployOptions.mk "test" "" "phi-3.5-mini-instruct" "" 1 [] "" [] "" false
        "qlora" "" [] "" "" "" "" "" true false) = none := by decide
  have h := deployDryRun_spec ["phi-3.5-mini-instruct"]
    (DeployOptions.mk "test" "" "phi-3.5-mini-instruct" "" 1 [] "" [] "" false
      "qlora" "" [] "" "" "" "" "" true false)
    "" (fun _ => false) (fun _ => ([], 1)) rfl hv
  refine ⟨rfl, hv, h.1, h.2.2.1, ?_⟩
  rcases h.2.2.2 with ⟨w, hwmem, hapi, hkind, hmd, hmode⟩
  exact ⟨w, hwmem, hapi, hmd, by simpa using hmode⟩

end KaitoCLI
